import Mathlib

/-!
# be-nc-news: the comments controller

A shallow embedding of `controllers/comments.js` and `models/comments.js`.

* Objects are modelled by their own enumerable data properties, listed in
  enumeration order (array-index names first, ascending, then the other names
  in creation order).  Of the prototype chain the model has the accessor
  `__proto__` of `Object.prototype`: assigning to that name creates no own
  property.  Other inherited properties are outside the model.
* A promise is modelled by the value it settles to: `Except.ok` for a
  resolved promise, `Except.error` for a rejected one.
* A handler's effect is an `Outcome`: either one `res.status(s).send(b)` or one
  call `next(err)`.
-/

namespace NcNews

/-! ## Values and objects -/

/-- JSON data as it reaches a handler (request bodies, row columns).  Numbers
are the integers. -/
inductive Val where
  | null
  | bool (b : Bool)
  | num (n : Int)
  | str (s : String)
  | arr (items : List Val)
  | obj (fields : List (String × Val))

/-- An object: its own enumerable properties in enumeration order. -/
abbrev Obj (α : Type) := List (String × α)

/-- The read `obj[key]`; `none` stands for `undefined`. -/
def getField {α : Type} : Obj α → String → Option α
  | [], _ => none
  | (k, v) :: rest, key => if k = key then some v else getField rest key

/-- Whether `key` names a property of the object. -/
def hasField {α : Type} (o : Obj α) (key : String) : Bool :=
  (getField o key).isSome

/-- The value of a canonical decimal numeral given by its digits, most
significant first, on top of the accumulator. -/
def digitsValue : List Char → Nat → Option Nat
  | [], acc => some acc
  | c :: cs, acc =>
    if 48 ≤ c.toNat ∧ c.toNat ≤ 57 then digitsValue cs (acc * 10 + (c.toNat - 48)) else none

/-- The array index a property name denotes, if any: the canonical decimal
numeral of an integer below `2^32 - 1`. -/
def arrayIndex (key : String) : Option Nat :=
  match key.data with
  | [] => none
  | [c] => digitsValue [c] 0
  | c :: cs =>
    if c = '0' then none
    else
      match digitsValue (c :: cs) 0 with
      | some n => if n < 4294967295 then some n else none
      | none => none

/-- Overwrite the value of the existing property `key`, keeping its place. -/
def replaceField {α : Type} : Obj α → String → α → Obj α
  | [], _, _ => []
  | (k, w) :: rest, key, v =>
    if k = key then (k, v) :: rest else (k, w) :: replaceField rest key v

/-- Create the array-index property `key` (index `n`): it goes before the
first property that is not an array index or has a larger index. -/
def insertIndexed {α : Type} : Obj α → String → Nat → α → Obj α
  | [], key, _, v => [(key, v)]
  | (k, w) :: rest, key, n, v =>
    match arrayIndex k with
    | some m => if m < n then (k, w) :: insertIndexed rest key n v else (key, v) :: (k, w) :: rest
    | none => (key, v) :: (k, w) :: rest

/-- The assignment `obj[key] = v` on an ordinary object: an own property is
overwritten in its place, a new one is created.  The name `__proto__` is the
exception: unless the object has an own property of that name, the assignment
goes to the accessor inherited from `Object.prototype` and creates no own
property (the prototype, which it may change, is not tracked). -/
def setField {α : Type} (o : Obj α) (key : String) (v : α) : Obj α :=
  if hasField o key then replaceField o key v
  else if key = "__proto__" then o
  else
    match arrayIndex key with
    | some n => insertIndexed o key n v
    | none => o ++ [(key, v)]

/-! ## `renameKeys` (controllers/comments.js, lines 8-17) -/

/-- One turn of the `for (let key in obj)` loop body:
`if (key === keyToChange) newObj[newKey] = obj[key]; else newObj[key] = obj[key];`. -/
def renameStep {α : Type} (obj : Obj α) (keyToChange newKey : String)
    (newObj : Obj α) (key : String) : Obj α :=
  match getField obj key with
  | some v => if key = keyToChange then setField newObj newKey v else setField newObj key v
  | none => newObj

/-- The callback of `arr.map`: a fresh object filled by the `for ... in` loop
over the keys of `obj`. -/
def renameObj {α : Type} (obj : Obj α) (keyToChange newKey : String) : Obj α :=
  (obj.map Prod.fst).foldl (renameStep obj keyToChange newKey) []

/-- The function `renameKeys (arr, keyToChange, newKey)`. -/
def renameKeys {α : Type} (arr : List (Obj α)) (keyToChange newKey : String) : List (Obj α) :=
  arr.map (fun obj => renameObj obj keyToChange newKey)

/-- The name under which the loop body stores the value read at `key`. -/
def targetKey (keyToChange newKey key : String) : String :=
  if key = keyToChange then newKey else key

/-! ## Failures and outcomes -/

/-- Modelled from the spec: the errors a storage call rejects with come from the
database driver, which is not among the sources.  Section 7 sorts them into
malformed query, body or type (`malformed`), foreign-key violation on write
(`referential`) and anything else (`uncategorized`). -/
inductive StorageError where
  | malformed
  | referential
  | uncategorized
  deriving DecidableEq, Repr

/-- What a handler passes to `next`: an application rejection
`{ status, msg }` or the error of a failed storage call. -/
inductive Failure where
  | rejection (status : Nat) (msg : String)
  | storage (e : StorageError)
  deriving DecidableEq, Repr

/-- The effect of a handler: `res.status(status).send(body)` (`body = none` for
a bare `send()`), or `next(err)`. -/
inductive Outcome where
  | send (status : Nat) (body : Option Val)
  | next (err : Failure)

/-- Modelled from the spec: the error-handling middleware (`./errors`, with
`handle400s`, `handle404s`, `handle500s`) is not among the sources.  This is the
table of section 4.5: a rejection carries its own status and message, a
malformed request is 400, a foreign-key violation 422, anything else 500. -/
def classify : Failure → Nat × String
  | .rejection status msg => (status, msg)
  | .storage .malformed => (400, "bad request")
  | .storage .referential => (422, "unprocessible entity")
  | .storage .uncategorized => (500, "internal server error")

/-- The status the client sees: the one sent by the handler, or the one the
error middleware gives to the failure passed to `next`. -/
def Outcome.status : Outcome → Nat
  | .send status _ => status
  | .next err => (classify err).1

/-- JavaScript truthiness of a value. -/
def truthy : Val → Bool
  | .null => false
  | .bool b => b
  | .num n => n != 0
  | .str s => s != ""
  | .arr _ => true
  | .obj _ => true

/-- Truthiness of a value that may be `undefined`. -/
def truthyOpt : Option Val → Bool
  | none => false
  | some v => truthy v

/-! ## `models/comments.js` -/

/-- The query a knex chain `select("*").from(t).where(c, x).orderBy(col, dir)`
describes; `orderDir = none` is an `undefined` direction argument. -/
structure Query where
  columns : String
  table : String
  whereColumn : String
  whereValue : String
  orderColumn : String
  orderDir : Option String
  deriving DecidableEq, Repr

/-- The function `selectCommentsByArticleId (id, sortBy = "comments_id", order)` of
models/comments.js, lines 3-9.  An absent argument is `none`; the default
parameter value applies to an absent `sortBy` only. -/
def selectCommentsByArticleId (id : String) (sortBy : Option String) (order : Option String) :
    Query :=
  { columns := "*"
    table := "comments"
    whereColumn := "article_id"
    whereValue := id
    orderColumn := match sortBy with
      | some col => col
      | none => "comments_id"
    orderDir := order }

/-! ## `controllers/comments.js` -/

/-- Rows of the comments table, as the storage layer returns them. -/
abbrev Rows := List (Obj Val)

/-- The body `{ comments: rows }`. -/
def commentsBody (rows : Rows) : Val :=
  .obj [("comments", .arr (rows.map Val.obj))]

/-- The handler `getComments` (lines 19-34).  `runQuery` is the database connection
executing the query built by `selectCommentsByArticleId`; `sort_by` and
`order` are `req.query.sort_by` and `req.query.order`. -/
def getComments (runQuery : Query → Except StorageError Rows) (article_id : String)
    (sort_by order : Option String) : Outcome :=
  match runQuery (selectCommentsByArticleId article_id sort_by order) with
  | .error e => .next (.storage e)
  | .ok comments =>
    match order with
    | some o =>
      if o ≠ "" ∧ (o ≠ "asc" ∧ o ≠ "desc") then .next (.rejection 400 "bad request")
      else .send 200 (some (commentsBody (renameKeys comments "author" "username")))
    | none => .send 200 (some (commentsBody (renameKeys comments "author" "username")))

/-- The handler `patchComment` (lines 36-52).  `updateComment` of models/comments.js is
not among the sources and is a parameter: it settles to the rows the update
returns or to a failure.  `body` is `req.body`, an object. -/
def patchComment (updateComment : String → Option Val → Except Failure Rows)
    (comment_id : String) (body : Obj Val) : Outcome :=
  let incVotes := getField body "inc_votes"
  match updateComment comment_id incVotes with
  | .error e => .next e
  | .ok comment =>
    if truthy (.obj body) && !truthyOpt incVotes then .next (.rejection 400 "bad request")
    else if comment.length = 0 then .next (.rejection 404 "comment does not exist")
    else .send 200 (some (.obj [("comment", .arr (comment.map Val.obj))]))

/-- The handler `deleteComment` (lines 54-61).  `removeComment` of models/comments.js is
not among the sources and is a parameter acting on the state `σ` of the
storage. -/
def deleteComment {σ : Type} (removeComment : String → σ → Except Failure σ)
    (comment_id : String) (db : σ) : Outcome × σ :=
  match removeComment comment_id db with
  | .ok db' => (.send 204 none, db')
  | .error e => (.next e, db)

/-- The arguments `postComment` spreads into `insertComment`: the copy of the body
with `article_id` assigned, passed through `renameKeys` (lines 64-67).  The copy
`{ ...req.body }` has the properties of the body in the same order. -/
def postRecord (article_id : String) (body : Obj Val) : List (Obj Val) :=
  let bodyClone := body
  let bodyClone := setField bodyClone "article_id" (.str article_id)
  renameKeys [bodyClone] "username" "author"

/-- The body `{ comment: comment[0] }`; an `undefined` member is dropped when the
body is serialised. -/
def createdBody (comment : Rows) : Val :=
  match comment with
  | row :: _ => .obj [("comment", .obj row)]
  | [] => .obj []

/-- The handler `postComment` (lines 63-73).  `insertComment` of models/comments.js is not
among the sources and is a parameter, applied to the spread argument list. -/
def postComment (insertComment : List (Obj Val) → Except Failure Rows)
    (article_id : String) (body : Obj Val) : Outcome :=
  match insertComment (postRecord article_id body) with
  | .ok comment => .send 201 (some (createdBody comment))
  | .error e => .next e

/-- Modelled from the spec: `removeComment` and the comments table are not among
the sources.  Section 4.3, delete: an existing entity is deleted, an absent
one is a not-found failure (404).  The table is represented by the
identifiers of its rows, written as the route writes them. -/
def removeCommentSpec (comment_id : String) (db : List String) : Except Failure (List String) :=
  if comment_id ∈ db then .ok (db.filter (fun c => c ≠ comment_id))
  else .error (.rejection 404 "not found")

/-- Modelled from the spec: `insertComment` and the comments table are not among
the sources.  Section 4.3, create comment: a record missing the author or the
body is a malformed request; otherwise the created row comes back with the
server-assigned identifier, `votes = 0` and the timestamp.  The user and the
article the record refers to are taken to exist. -/
def insertCommentSpec (comment_id : Int) (created_at : String) (args : List (Obj Val)) :
    Except Failure Rows :=
  match args with
  | record :: _ =>
    if hasField record "author" && hasField record "body" then
      .ok [setField (setField (setField record "comment_id" (.num comment_id))
        "votes" (.num 0)) "created_at" (.str created_at)]
    else .error (.storage .malformed)
  | [] => .error (.storage .malformed)

/-- A row of the comments table, as in the test data: comment 1, with 16 votes. -/
def sampleComment : Obj Val :=
  [("comment_id", .num 1), ("author", .str "butter_bridge"), ("article_id", .num 9),
   ("votes", .num 16), ("created_at", .str "2017-11-22T12:36:03.389Z"),
   ("body", .str "Oh, I have got compassion!")]

/-! ## Well-formed objects and the heap -/

/-- Whether the property named `k1` may be enumerated before the one named `k2`
in one object: the names differ, an array index comes before every larger
index and before every other name. -/
def keyBefore (k1 k2 : String) : Bool :=
  k1 != k2 &&
    match arrayIndex k1, arrayIndex k2 with
    | some m, some n => decide (m < n)
    | some _, none => true
    | none, some _ => false
    | none, none => true

/-- Whether a list of properties is the enumeration of an object: every
property may be enumerated before all those that follow it. -/
def wellFormed {α : Type} : Obj α → Bool
  | [] => true
  | (k, _) :: rest => rest.all (fun e => keyBefore k e.1) && wellFormed rest

/-- The objects allocated so far; a reference is a position in the list. -/
abbrev Heap := List (Obj Val)

/-- The object a reference points to. -/
def readObj (h : Heap) (ref : Nat) : Obj Val :=
  h.getD ref []

/-- The assignment `ref[key] = v`, which changes the object `ref` points to. -/
def assignField (h : Heap) (ref : Nat) (key : String) (v : Val) : Heap :=
  h.set ref (setField (readObj h ref) key v)

/-- Lines 64-67 of `postComment` on the heap, `reqBody` being the reference held by
`req.body`: the spread allocates the copy `bodyClone`, the assignment writes to
`bodyClone`, `renameKeys` reads `bodyClone` and allocates its results.  The outcome is
the heap afterwards and the arguments spread into `insertComment`. -/
def postRecordHeap (article_id : String) (h : Heap) (reqBody : Nat) : Heap × List (Obj Val) :=
  let bodyClone := h.length
  let h1 := h ++ [readObj h reqBody]
  let h2 := assignField h1 bodyClone "article_id" (.str article_id)
  let bodyClone2 := renameKeys [readObj h2 bodyClone] "username" "author"
  (h2 ++ bodyClone2, bodyClone2)

/-- Modelled from the spec: the columns of the comments table, whose migration is
not among the sources (section 3, Comment). -/
def commentColumns : List String :=
  ["comment_id", "body", "votes", "author", "article_id", "created_at"]

/-- Whether a row is a comment: each of its fields is a column of the comments
table. -/
def isComment (row : Obj Val) : Bool :=
  row.all (fun e => decide (e.1 ∈ commentColumns))

/-! ## Lemmas: reading after writing -/

theorem getField_replaceField {α : Type} (o : Obj α) (key : String) (v : α) (k : String)
    (h : hasField o key = true) :
    getField (replaceField o key v) k = if key = k then some v else getField o k := by
  induction o with
  | nil => simp [hasField, getField] at h
  | cons e rest ih =>
    obtain ⟨k1, w⟩ := e
    by_cases h1 : k1 = key
    · subst h1
      by_cases h2 : k1 = k <;> simp [replaceField, getField, h2]
    · have hrest : hasField rest key = true := by
        simpa [hasField, getField, h1] using h
      by_cases h2 : k1 = k
      · subst h2
        have h3 : ¬ key = k1 := fun h3 => h1 h3.symm
        simp [replaceField, getField, h1, h3]
      · simp [replaceField, getField, h1, h2, ih hrest]

theorem getField_insertIndexed {α : Type} (o : Obj α) (key : String) (n : Nat) (v : α)
    (k : String) (h : hasField o key = false) :
    getField (insertIndexed o key n v) k = if key = k then some v else getField o k := by
  induction o with
  | nil => simp [insertIndexed, getField]
  | cons e rest ih =>
    obtain ⟨k1, w⟩ := e
    have h1 : ¬ k1 = key := by
      intro h1
      simp [hasField, getField, h1] at h
    have hrest : hasField rest key = false := by
      simpa [hasField, getField, h1] using h
    unfold insertIndexed
    split
    · split
      · by_cases h2 : k1 = k
        · subst h2
          have h3 : ¬ key = k1 := fun h3 => h1 h3.symm
          simp [getField, h3]
        · simp [getField, h2, ih hrest]
      · simp [getField]
    · simp [getField]

theorem getField_append_new {α : Type} (o : Obj α) (key : String) (v : α) (k : String)
    (h : hasField o key = false) :
    getField (o ++ [(key, v)]) k = if key = k then some v else getField o k := by
  induction o with
  | nil => simp [getField]
  | cons e rest ih =>
    obtain ⟨k1, w⟩ := e
    have h1 : ¬ k1 = key := by
      intro h1
      simp [hasField, getField, h1] at h
    have hrest : hasField rest key = false := by
      simpa [hasField, getField, h1] using h
    by_cases h2 : k1 = k
    · subst h2
      have h3 : ¬ key = k1 := fun h3 => h1 h3.symm
      simp [getField, h3]
    · simp [getField, h2, ih hrest]

/-- Reading `k` after the assignment `o[key] = v`, for a name other than
`__proto__`. -/
theorem getField_setField {α : Type} (o : Obj α) (key : String) (v : α) (k : String)
    (hkey : key ≠ "__proto__") :
    getField (setField o key v) k = if key = k then some v else getField o k := by
  unfold setField
  by_cases h : hasField o key = true
  · simp [h, getField_replaceField o key v k h]
  · have h' : hasField o key = false := by simpa using h
    simp only [h', Bool.false_eq_true, if_false]
    rw [if_neg hkey]
    split
    · exact getField_insertIndexed o key _ v k h'
    · exact getField_append_new o key v k h'

/-- An assignment leaves every other name as it reads. -/
theorem getField_setField_ne {α : Type} (o : Obj α) (key : String) (v : α) (k : String)
    (h : key ≠ k) : getField (setField o key v) k = getField o k := by
  by_cases hkey : key = "__proto__"
  · unfold setField
    by_cases hf : hasField o key = true
    · simp [hf, getField_replaceField o key v k hf, h]
    · rw [if_neg hf, if_pos hkey]
  · rw [getField_setField o key v k hkey, if_neg h]

/-- An assignment to `__proto__` leaves an object without an own property of that
name as it is. -/
theorem setField_proto {α : Type} (o : Obj α) (v : α)
    (h : hasField o "__proto__" = false) : setField o "__proto__" v = o := by
  simp [setField, h]

/-- No assignment creates an own property named `__proto__`. -/
theorem getField_setField_proto {α : Type} (o : Obj α) (key : String) (v : α)
    (h : getField o "__proto__" = none) :
    getField (setField o key v) "__proto__" = none := by
  by_cases hkey : key = "__proto__"
  · rw [hkey, setField_proto o v (by simp [hasField, h]), h]
  · rw [getField_setField_ne o key v "__proto__" hkey, h]

/-- A name is among the keys of an object exactly when reading it gives a value. -/
theorem mem_keys_iff {α : Type} (o : Obj α) (k : String) :
    k ∈ o.map Prod.fst ↔ (getField o k).isSome = true := by
  induction o with
  | nil => simp [getField]
  | cons e rest ih =>
    obtain ⟨k1, w⟩ := e
    by_cases h : k1 = k
    · simp [getField, h]
    · have h' : ¬ k = k1 := fun h' => h h'.symm
      simp [getField, h, h', ih]

/-! ## Lemmas: the loop of `renameKeys` -/

theorem renameStep_eq {α : Type} (obj : Obj α) (a b : String) (newObj : Obj α) (key : String) :
    renameStep obj a b newObj key =
      match getField obj key with
      | some v => setField newObj (targetKey a b key) v
      | none => newObj := by
  unfold renameStep targetKey
  cases getField obj key with
  | none => rfl
  | some v => by_cases h : key = a <;> simp [h]

/-- Reading `k`, a name other than `__proto__`, after the loop has run over the
keys `ks`, when `k0` is the only key of `ks` whose value goes under `k`. -/
theorem getField_foldl_renameStep {α : Type} (obj : Obj α) (a b k k0 : String)
    (ks : List String) (acc : Obj α) (hk : k ≠ "__proto__")
    (h : ∀ key ∈ ks, targetKey a b key = k → key = k0) :
    getField (ks.foldl (renameStep obj a b) acc) k =
      if k0 ∈ ks ∧ targetKey a b k0 = k ∧ (getField obj k0).isSome = true
      then getField obj k0 else getField acc k := by
  induction ks generalizing acc with
  | nil => simp
  | cons key ks ih =>
    have hks : ∀ key' ∈ ks, targetKey a b key' = k → key' = k0 :=
      fun key' hm => h key' (List.mem_cons_of_mem _ hm)
    rw [List.foldl_cons, ih _ hks]
    by_cases hc : k0 ∈ ks ∧ targetKey a b k0 = k ∧ (getField obj k0).isSome = true
    · have hc' : k0 ∈ key :: ks ∧ targetKey a b k0 = k ∧ (getField obj k0).isSome = true :=
        ⟨List.mem_cons_of_mem _ hc.1, hc.2⟩
      rw [if_pos hc, if_pos hc']
    · rw [if_neg hc, renameStep_eq]
      by_cases ht : targetKey a b key = k
      · have hk0 : key = k0 := h key (List.mem_cons_self _ _) ht
        subst hk0
        cases hg : getField obj key with
        | none => simp [hg]
        | some v =>
          have hw : getField (setField acc k v) k = some v := by
            rw [getField_setField acc k v k hk, if_pos rfl]
          simp [hg, ht, hw]
      · have hne : ¬ (k0 ∈ key :: ks ∧ targetKey a b k0 = k ∧ (getField obj k0).isSome = true) := by
          rintro ⟨hm, ht0, hs⟩
          rcases List.mem_cons.mp hm with hm | hm
          · exact ht (hm ▸ ht0)
          · exact hc ⟨hm, ht0, hs⟩
        rw [if_neg hne]
        cases hg : getField obj key with
        | none => rfl
        | some v => exact getField_setField_ne acc _ v k ht

/-- The loop creates no own property named `__proto__`. -/
theorem getField_foldl_renameStep_proto {α : Type} (obj : Obj α) (a b : String)
    (ks : List String) (acc : Obj α) (hacc : getField acc "__proto__" = none) :
    getField (ks.foldl (renameStep obj a b) acc) "__proto__" = none := by
  induction ks generalizing acc with
  | nil => exact hacc
  | cons key ks ih =>
    rw [List.foldl_cons]
    apply ih
    rw [renameStep_eq]
    cases hg : getField obj key with
    | none => exact hacc
    | some v => exact getField_setField_proto acc _ v hacc

/-- The renamed object has no own property named `__proto__`. -/
theorem getField_renameObj_proto {α : Type} (obj : Obj α) (a b : String) :
    getField (renameObj obj a b) "__proto__" = none := by
  unfold renameObj
  exact getField_foldl_renameStep_proto obj a b _ [] rfl

/-- Reading `k`, a name other than `__proto__`, in the renamed object, when `k0`
is the only key of `obj` whose value goes under `k`. -/
theorem getField_renameObj {α : Type} (obj : Obj α) (a b k k0 : String)
    (hk : k ≠ "__proto__")
    (h : ∀ key, (getField obj key).isSome = true → targetKey a b key = k → key = k0)
    (hk0 : targetKey a b k0 = k) :
    getField (renameObj obj a b) k = getField obj k0 := by
  unfold renameObj
  rw [getField_foldl_renameStep obj a b k k0 _ _ hk
    (fun key hm => h key ((mem_keys_iff obj key).mp hm))]
  by_cases hs : (getField obj k0).isSome = true
  · rw [if_pos ⟨(mem_keys_iff obj k0).mpr hs, hk0, hs⟩]
  · have hn : ¬ (k0 ∈ List.map Prod.fst obj ∧ targetKey a b k0 = k ∧
        (getField obj k0).isSome = true) := fun hc => hs hc.2.2
    rw [if_neg hn]
    cases hg : getField obj k0 with
    | none => rfl
    | some v => simp [hg] at hs

/-- Reading `k` in the renamed object, when no key of `obj` has its value stored
under `k`. -/
theorem getField_renameObj_none {α : Type} (obj : Obj α) (a b k : String)
    (h : ∀ key, (getField obj key).isSome = true → targetKey a b key ≠ k) :
    getField (renameObj obj a b) k = none := by
  by_cases hk : k = "__proto__"
  · rw [hk]
    exact getField_renameObj_proto obj a b
  · unfold renameObj
    rw [getField_foldl_renameStep obj a b k k _ _ hk
      (fun key hm ht => absurd ht (h key ((mem_keys_iff obj key).mp hm)))]
    have hn : ¬ (k ∈ List.map Prod.fst obj ∧ targetKey a b k = k ∧
        (getField obj k).isSome = true) := fun hc => h k hc.2.2 hc.2.1
    rw [if_neg hn]
    rfl

/-! ## Lemmas: what `renameKeys` does to one entity -/

/-- A field other than the two named ones, and not named `__proto__`, keeps its
value. -/
theorem getField_renameObj_other {α : Type} (obj : Obj α) (a b k : String)
    (hka : k ≠ a) (hkb : k ≠ b) (hk : k ≠ "__proto__") :
    getField (renameObj obj a b) k = getField obj k := by
  apply getField_renameObj obj a b k k hk
  · intro key _ ht
    unfold targetKey at ht
    by_cases hk : key = a
    · rw [if_pos hk] at ht
      exact absurd ht.symm hkb
    · rw [if_neg hk] at ht
      exact ht
  · unfold targetKey
    rw [if_neg hka]

/-- The value under the old name is found under the new name, when the new name
is not `__proto__` and the entity has no other field of that name. -/
theorem getField_renameObj_new {α : Type} (obj : Obj α) (a b : String)
    (h : a = b ∨ hasField obj b = false) (hb : b ≠ "__proto__") :
    getField (renameObj obj a b) b = getField obj a := by
  apply getField_renameObj obj a b b a hb
  · intro key hs ht
    unfold targetKey at ht
    by_cases hk : key = a
    · exact hk
    · rw [if_neg hk] at ht
      subst ht
      rcases h with hab | hb
      · exact absurd hab.symm hk
      · simp [hasField] at hb
        simp [hb] at hs
  · unfold targetKey
    rw [if_pos rfl]

/-- Nothing is left under the old name, when the two names differ. -/
theorem getField_renameObj_old {α : Type} (obj : Obj α) (a b : String) (hab : a ≠ b) :
    getField (renameObj obj a b) a = none := by
  apply getField_renameObj_none
  intro key _ ht
  unfold targetKey at ht
  by_cases hk : key = a
  · rw [if_pos hk] at ht
    exact hab ht.symm
  · rw [if_neg hk] at ht
    exact hk ht

/-- When the old name is absent, or the two names are the same, every field not
named `__proto__` reads as before. -/
theorem getField_renameObj_same {α : Type} (obj : Obj α) (a b : String)
    (h : a = b ∨ hasField obj a = false) (k : String) (hk : k ≠ "__proto__") :
    getField (renameObj obj a b) k = getField obj k := by
  by_cases hab : a = b
  · subst hab
    apply getField_renameObj obj a a k k hk
    · intro key _ ht
      unfold targetKey at ht
      by_cases hk : key = a
      · rw [if_pos hk] at ht
        rw [hk, ht]
      · rw [if_neg hk] at ht
        exact ht
    · unfold targetKey
      by_cases hk : k = a
      · rw [if_pos hk, hk]
      · rw [if_neg hk]
  · have ha : getField obj a = none := by
      rcases h with h | h
      · exact absurd h hab
      · simpa [hasField] using h
    by_cases hka : k = a
    · subst hka
      rw [getField_renameObj_old obj k b hab, ha]
    · apply getField_renameObj obj a b k k hk
      · intro key hs ht
        unfold targetKey at ht
        by_cases hk' : key = a
        · subst hk'
          simp [ha] at hs
        · rw [if_neg hk'] at ht
          exact ht
      · unfold targetKey
        rw [if_neg hka]

/-- When the old name is absent, or the two names are the same, an entity without
a field named `__proto__` reads as before at every name. -/
theorem getField_renameObj_same_all {α : Type} (obj : Obj α) (a b : String)
    (h : a = b ∨ hasField obj a = false) (hproto : hasField obj "__proto__" = false)
    (k : String) :
    getField (renameObj obj a b) k = getField obj k := by
  by_cases hk : k = "__proto__"
  · have hn : getField obj "__proto__" = none := by simpa [hasField] using hproto
    rw [hk, getField_renameObj_proto, hn]
  · exact getField_renameObj_same obj a b h k hk

/-! ## Lemmas: well-formed objects are copied as they are -/

theorem keyBefore_ne (k1 k2 : String) (h : keyBefore k1 k2 = true) : k1 ≠ k2 := by
  unfold keyBefore at h
  simp only [Bool.and_eq_true, bne_iff_ne] at h
  exact h.1

theorem keyBefore_index (k1 k2 : String) (n : Nat) (h : keyBefore k1 k2 = true)
    (h2 : arrayIndex k2 = some n) : ∃ m, arrayIndex k1 = some m ∧ m < n := by
  unfold keyBefore at h
  rw [h2] at h
  cases h1 : arrayIndex k1 with
  | none => simp [h1] at h
  | some m =>
    refine ⟨m, rfl, ?_⟩
    rw [h1] at h
    simp only [Bool.and_eq_true, decide_eq_true_eq] at h
    exact h.2

theorem insertIndexed_eq_append {α : Type} (p : Obj α) (key : String) (n : Nat) (v : α)
    (h : ∀ e ∈ p, ∃ m, arrayIndex e.1 = some m ∧ m < n) :
    insertIndexed p key n v = p ++ [(key, v)] := by
  induction p with
  | nil => rfl
  | cons e rest ih =>
    obtain ⟨k1, w⟩ := e
    obtain ⟨m, hm, hlt⟩ := h (k1, w) (List.mem_cons_self _ _)
    have hrest := ih (fun e he => h e (List.mem_cons_of_mem _ he))
    simp only [insertIndexed] at *
    simp [hm, hlt, hrest]

theorem hasField_false_of_ne {α : Type} (p : Obj α) (key : String)
    (h : ∀ e ∈ p, e.1 ≠ key) : hasField p key = false := by
  cases hf : hasField p key with
  | false => rfl
  | true =>
    have hm : key ∈ p.map Prod.fst := (mem_keys_iff p key).mpr hf
    obtain ⟨e, he, hk⟩ := List.mem_map.mp hm
    exact absurd hk (h e he)

/-- Creating a property, not named `__proto__`, that may follow all the others
puts it last. -/
theorem setField_eq_append {α : Type} (p : Obj α) (key : String) (v : α)
    (hkey : key ≠ "__proto__") (h : ∀ e ∈ p, keyBefore e.1 key = true) :
    setField p key v = p ++ [(key, v)] := by
  have hno : hasField p key = false :=
    hasField_false_of_ne p key (fun e he => keyBefore_ne _ _ (h e he))
  unfold setField
  simp only [hno, Bool.false_eq_true, if_false]
  rw [if_neg hkey]
  cases hidx : arrayIndex key with
  | none => rfl
  | some n =>
    exact insertIndexed_eq_append p key n v
      (fun e he => keyBefore_index _ _ n (h e he) hidx)

theorem wellFormed_append {α : Type} (p q : Obj α) (h : wellFormed (p ++ q) = true) :
    ∀ e ∈ p, ∀ e' ∈ q, keyBefore e.1 e'.1 = true := by
  induction p with
  | nil => intro e he; cases he
  | cons x rest ih =>
    obtain ⟨k1, w⟩ := x
    simp only [List.cons_append, wellFormed, Bool.and_eq_true, List.all_eq_true] at h
    intro e he e' he'
    rcases List.mem_cons.mp he with he | he
    · subst he
      exact h.1 e' (List.mem_append_right _ he')
    · exact ih h.2 e he e' he'

theorem getField_append_skip {α : Type} (p q : Obj α) (key : String)
    (h : ∀ e ∈ p, e.1 ≠ key) : getField (p ++ q) key = getField q key := by
  induction p with
  | nil => rfl
  | cons x rest ih =>
    obtain ⟨k1, w⟩ := x
    have h1 : ¬ k1 = key := h (k1, w) (List.mem_cons_self _ _)
    simp [getField, h1, ih (fun e he => h e (List.mem_cons_of_mem _ he))]

theorem foldl_renameStep_copy {α : Type} (obj : Obj α) (a b : String)
    (h : a = b ∨ hasField obj a = false) (hproto : hasField obj "__proto__" = false)
    (hwf : wellFormed obj = true) :
    ∀ (s p : Obj α), p ++ s = obj →
      (s.map Prod.fst).foldl (renameStep obj a b) p = obj := by
  intro s
  induction s with
  | nil =>
    intro p hp
    simpa using hp
  | cons x s ih =>
    intro p hp
    obtain ⟨k, v⟩ := x
    have hbefore : ∀ e ∈ p, keyBefore e.1 k = true := by
      intro e he
      have hw : wellFormed (p ++ (k, v) :: s) = true := by rw [hp]; exact hwf
      exact wellFormed_append p ((k, v) :: s) hw e he (k, v) (List.mem_cons_self _ _)
    have hget : getField obj k = some v := by
      rw [← hp, getField_append_skip p _ k (fun e he => keyBefore_ne _ _ (hbefore e he))]
      simp [getField]
    have hk : k ≠ "__proto__" := by
      intro hk
      rw [hk] at hget
      simp [hasField, hget] at hproto
    have hstep : renameStep obj a b p k = p ++ [(k, v)] := by
      unfold renameStep
      rw [hget]
      by_cases hka : k = a
      · rcases h with hab | ha
        · simp only [hka, if_true]
          rw [← hab, ← hka]
          exact setField_eq_append p k v hk hbefore
        · rw [hka] at hget
          simp [hasField, hget] at ha
      · simp only [hka, if_false]
        exact setField_eq_append p k v hk hbefore
    simp only [List.map_cons, List.foldl_cons, hstep]
    exact ih (p ++ [(k, v)]) (by simpa using hp)

/-- A well-formed entity without a field named `__proto__`, and without the old
name or renamed to the same name, comes back as it is. -/
theorem renameObj_eq_self {α : Type} (obj : Obj α) (a b : String)
    (h : a = b ∨ hasField obj a = false) (hproto : hasField obj "__proto__" = false)
    (hwf : wellFormed obj = true) :
    renameObj obj a b = obj :=
  foldl_renameStep_copy obj a b h hproto hwf obj [] rfl

/-- The i-th entity of the result is the renaming of the i-th entity of `arr`. -/
theorem renameKeys_getElem? {α : Type} (arr : List (Obj α)) (a b : String) (i : Nat) :
    (renameKeys arr a b)[i]? = (arr[i]?).map (fun obj => renameObj obj a b) := by
  simp [renameKeys]

/-- A comment has no field named `username`. -/
theorem isComment_no_username (row : Obj Val) (h : isComment row = true) :
    hasField row "username" = false := by
  apply hasField_false_of_ne
  intro e he hk
  have hmem : e.1 ∈ commentColumns := by
    simpa using (List.all_eq_true.mp h) e he
  rw [hk] at hmem
  revert hmem
  decide

/-- A comment has no field named `__proto__`. -/
theorem isComment_no_proto (row : Obj Val) (h : isComment row = true) :
    hasField row "__proto__" = false := by
  apply hasField_false_of_ne
  intro e he hk
  have hmem : e.1 ∈ commentColumns := by
    simpa using (List.all_eq_true.mp h) e he
  rw [hk] at hmem
  revert hmem
  decide

/-! ## Lemmas: the heap of `postComment` -/

theorem postRecordHeap_args (article_id : String) (h : Heap) (reqBody : Nat) :
    (postRecordHeap article_id h reqBody).2 = postRecord article_id (readObj h reqBody) := by
  simp [postRecordHeap, postRecord, readObj, assignField]

theorem postRecordHeap_frame (article_id : String) (h : Heap) (reqBody ref : Nat)
    (href : ref < h.length) :
    readObj (postRecordHeap article_id h reqBody).1 ref = readObj h ref := by
  have hne : h.length ≠ ref := Nat.ne_of_gt href
  have hlt : ref < (h ++ [readObj h reqBody]).length := by
    simp only [List.length_append, List.length_singleton]
    omega
  simp only [postRecordHeap, readObj, assignField, List.getD_eq_getElem?_getD]
  rw [List.getElem?_append_left (by simpa using hlt), List.getElem?_set_ne hne,
    List.getElem?_append_left href]

/-! ## Theorems: `getComments` and `selectCommentsByArticleId` -/

/-- C1: when the query for the comments of an article returns no row (as it does
for an article that does not exist) and `order` is omitted, `getComments` sends
status 200 with `{ comments: [] }`; it does not fail with 404. -/
theorem getComments_no_rows_sends_200 (article_id : String) (sort_by : Option String) :
    getComments (fun _ => .ok []) article_id sort_by none
        = .send 200 (some (commentsBody [])) ∧
      (getComments (fun _ => .ok []) article_id sort_by none).status = 200 ∧
      (getComments (fun _ => .ok []) article_id sort_by none).status ≠ 404 := by
  refine ⟨rfl, rfl, ?_⟩
  show (200 : Nat) ≠ 404
  decide

/-- C3, as stated, fails: an invalid `order` on a request whose storage query
fails is answered with the storage failure (status 500 here), not with the
400 rejection; and an `order` that is present and is the empty string is
answered 200. -/
theorem getComments_order_counterexample :
    getComments (fun _ => .error .uncategorized) "1" (some "votes") (some "pizza")
        = .next (.storage .uncategorized) ∧
      (getComments (fun _ => .error .uncategorized) "1" (some "votes") (some "pizza")).status
        = 500 ∧
      getComments (fun _ => .ok [sampleComment]) "1" (some "votes") (some "")
        = .send 200 (some (.obj [("comments",
            .arr ((renameKeys [sampleComment] "author" "username").map Val.obj))])) :=
  ⟨rfl, rfl, rfl⟩

/-- C3, amended: when the storage query succeeds and `order` is a non-empty
string other than "asc" and "desc", `getComments` fails with the rejection
`{ status: 400, msg: "bad request" }`; when the storage query fails, its failure
is what is passed to `next`, whatever `order` is. -/
theorem getComments_invalid_order (runQuery : Query → Except StorageError Rows)
    (article_id : String) (sort_by : Option String) :
    (∀ (o : String) (rows : Rows), o ≠ "" → o ≠ "asc" → o ≠ "desc" →
      runQuery (selectCommentsByArticleId article_id sort_by (some o)) = .ok rows →
      getComments runQuery article_id sort_by (some o) = .next (.rejection 400 "bad request") ∧
      (getComments runQuery article_id sort_by (some o)).status = 400) ∧
    (∀ (order : Option String) (e : StorageError),
      runQuery (selectCommentsByArticleId article_id sort_by order) = .error e →
      getComments runQuery article_id sort_by order = .next (.storage e)) := by
  constructor
  · intro o rows h0 hasc hdesc hq
    have hout : getComments runQuery article_id sort_by (some o)
        = .next (.rejection 400 "bad request") := by
      simp [getComments, hq, h0, hasc, hdesc]
    exact ⟨hout, by rw [hout]; rfl⟩
  · intro order e hq
    simp [getComments, hq]

/-- C3, amended, at `order = "ASC"` on a query that succeeds, and at
`order = "pizza"` on a query that fails. -/
theorem getComments_invalid_order_witness :
    (getComments (fun _ => .ok [sampleComment]) "1" (some "votes") (some "ASC")
        = .next (.rejection 400 "bad request") ∧
      (getComments (fun _ => .ok [sampleComment]) "1" (some "votes") (some "ASC")).status
        = 400) ∧
    getComments (fun _ => .error .uncategorized) "1" (some "votes") (some "pizza")
        = .next (.storage .uncategorized) :=
  ⟨(getComments_invalid_order (fun _ => .ok [sampleComment]) "1" (some "votes")).1
      "ASC" [sampleComment] (by decide) (by decide) (by decide) rfl,
    (getComments_invalid_order (fun _ => .error .uncategorized) "1" (some "votes")).2
      (some "pizza") .uncategorized rfl⟩

/-- C4: with `order` omitted, the direction `selectCommentsByArticleId` hands to `orderBy`
is `undefined`, not "desc", and the query differs from the one built for
`order=desc`. -/
theorem selectCommentsByArticleId_default_order (id : String) (sortBy : Option String) :
    (selectCommentsByArticleId id sortBy none).orderDir = none ∧
      (selectCommentsByArticleId id sortBy none).orderDir ≠ some "desc" ∧
      selectCommentsByArticleId id sortBy none
        ≠ selectCommentsByArticleId id sortBy (some "desc") := by
  refine ⟨rfl, ?_, ?_⟩
  · simp [selectCommentsByArticleId]
  · intro h
    have h2 := congrArg Query.orderDir h
    simp [selectCommentsByArticleId] at h2

/-- C5: with `sort_by` omitted, the column `selectCommentsByArticleId` hands to `orderBy` is
"comments_id", which is not "created_at"; a given `sort_by` is handed over
as it is. -/
theorem selectCommentsByArticleId_sort_column (id : String) (order : Option String) :
    (selectCommentsByArticleId id none order).orderColumn = "comments_id" ∧
      (selectCommentsByArticleId id none order).orderColumn ≠ "created_at" ∧
      ∀ col : String, (selectCommentsByArticleId id (some col) order).orderColumn = col := by
  refine ⟨rfl, ?_, fun _ => rfl⟩
  show "comments_id" ≠ "created_at"
  decide

/-! ## Theorems: `patchComment` -/

/-- C2: for every comment the update returns, `patchComment` with the empty body
`{}` fails with the rejection `{ status: 400, msg: "bad request" }`; it does not
send 200. -/
theorem patchComment_empty_body_rejected (comment_id : String) (rows : Rows) :
    patchComment (fun _ _ => .ok rows) comment_id []
        = .next (.rejection 400 "bad request") ∧
      (patchComment (fun _ _ => .ok rows) comment_id []).status = 400 :=
  ⟨rfl, rfl⟩

/-- C6: for every comment the update returns, `patchComment` with the delta
`{ inc_votes: 0 }` fails with the rejection `{ status: 400, msg: "bad request" }`;
it does not send 200. -/
theorem patchComment_zero_delta_rejected (comment_id : String) (rows : Rows) :
    patchComment (fun _ _ => .ok rows) comment_id [("inc_votes", .num 0)]
        = .next (.rejection 400 "bad request") ∧
      (patchComment (fun _ _ => .ok rows) comment_id [("inc_votes", .num 0)]).status = 400 :=
  ⟨rfl, rfl⟩

/-- C7, as stated, fails: on a comment that does not exist (the update returns no
row), the body `{ pizza: 1 }` is answered with the 400 rejection, not 404. -/
theorem patchComment_missing_comment_counterexample :
    patchComment (fun _ _ => .ok []) "100" [("pizza", .num 1)]
        = .next (.rejection 400 "bad request") ∧
      (patchComment (fun _ _ => .ok []) "100" [("pizza", .num 1)]).status = 400 :=
  ⟨rfl, rfl⟩

/-- C7, amended: when the update returns no row and the body carries a truthy
`inc_votes` (a non-zero integer, for one), `patchComment` fails with status 404
(`msg` "comment does not exist"); a non-empty body without `inc_votes` is
rejected with 400 before the existence check. -/
theorem patchComment_missing_comment
    (updateComment : String → Option Val → Except Failure Rows)
    (comment_id : String) (body : Obj Val) :
    (∀ v : Val, getField body "inc_votes" = some v → truthy v = true →
      updateComment comment_id (some v) = .ok [] →
      patchComment updateComment comment_id body
          = .next (.rejection 404 "comment does not exist") ∧
        (patchComment updateComment comment_id body).status = 404) ∧
    (∀ rows : Rows, body ≠ [] → getField body "inc_votes" = none →
      updateComment comment_id none = .ok rows →
      patchComment updateComment comment_id body = .next (.rejection 400 "bad request")) := by
  constructor
  · intro v hv ht hu
    have hout : patchComment updateComment comment_id body
        = .next (.rejection 404 "comment does not exist") := by
      simp [patchComment, hv, hu, truthyOpt, ht]
    exact ⟨hout, by rw [hout]; rfl⟩
  · intro rows _ hv hu
    simp [patchComment, hv, hu, truthyOpt, truthy]

/-- C7, amended, at comment 100 with `{ inc_votes: 1 }` and with `{ pizza: 1 }`. -/
theorem patchComment_missing_comment_witness :
    (patchComment (fun _ _ => .ok []) "100" [("inc_votes", .num 1)]
        = .next (.rejection 404 "comment does not exist") ∧
      (patchComment (fun _ _ => .ok []) "100" [("inc_votes", .num 1)]).status = 404) ∧
    patchComment (fun _ _ => .ok []) "100" [("pizza", .num 1)]
        = .next (.rejection 400 "bad request") :=
  ⟨(patchComment_missing_comment (fun _ _ => .ok []) "100" [("inc_votes", .num 1)]).1
      (.num 1) rfl rfl rfl,
    (patchComment_missing_comment (fun _ _ => .ok []) "100" [("pizza", .num 1)]).2
      [] (by simp) rfl rfl⟩

/-! ## Theorems: `deleteComment` -/

/-- The handler `deleteComment` sends 204 without a body exactly when `removeComment` resolves,
and passes every rejection on to `next`. -/
theorem deleteComment_outcome {σ : Type} (removeComment : String → σ → Except Failure σ)
    (comment_id : String) (db : σ) :
    (∀ db', removeComment comment_id db = .ok db' →
      deleteComment removeComment comment_id db = (.send 204 none, db')) ∧
    (∀ e, removeComment comment_id db = .error e →
      deleteComment removeComment comment_id db = (.next e, db)) := by
  constructor
  · intro db' h
    simp [deleteComment, h]
  · intro e h
    simp [deleteComment, h]

/-- C9: `deleteComment` sends status 204 with no body exactly when the comment
exists, and the comment is then gone; when no such comment exists it fails
with status 404; so a second deletion of the same comment fails with 404. -/
theorem deleteComment_204_iff_exists (comment_id : String) (db : List String) :
    ((deleteComment removeCommentSpec comment_id db).1 = .send 204 none ↔ comment_id ∈ db) ∧
    (comment_id ∉ db →
      deleteComment removeCommentSpec comment_id db = (.next (.rejection 404 "not found"), db) ∧
      (deleteComment removeCommentSpec comment_id db).1.status = 404) ∧
    (comment_id ∈ db →
      comment_id ∉ (deleteComment removeCommentSpec comment_id db).2 ∧
      (deleteComment removeCommentSpec comment_id
          (deleteComment removeCommentSpec comment_id db).2).1
        = .next (.rejection 404 "not found")) := by
  have hin : comment_id ∈ db →
      deleteComment removeCommentSpec comment_id db
        = (.send 204 none, db.filter (fun c => c ≠ comment_id)) := by
    intro h
    exact (deleteComment_outcome removeCommentSpec comment_id db).1 _
      (by simp [removeCommentSpec, h])
  have hout : ∀ d : List String, comment_id ∉ d →
      deleteComment removeCommentSpec comment_id d
        = (.next (.rejection 404 "not found"), d) := by
    intro d h
    exact (deleteComment_outcome removeCommentSpec comment_id d).2 _
      (by simp [removeCommentSpec, h])
  have hgone : comment_id ∉ db.filter (fun c => c ≠ comment_id) := by
    simp [List.mem_filter]
  refine ⟨⟨?_, ?_⟩, ?_, ?_⟩
  · intro h
    by_contra hn
    rw [hout db hn] at h
    cases h
  · intro h
    rw [hin h]
  · intro hn
    refine ⟨hout db hn, ?_⟩
    rw [hout db hn]
    rfl
  · intro h
    rw [hin h]
    exact ⟨hgone, by rw [hout _ hgone]⟩

/-- C9 on a table holding comments 1 and 2: deleting comment 1 gives 204, deleting
it again gives 404, and deleting comment 100 gives 404. -/
theorem deleteComment_204_iff_exists_witness :
    ("1" ∈ ["1", "2"] ∧ "100" ∉ ["1", "2"]) ∧
    (deleteComment removeCommentSpec "1" ["1", "2"]).1 = .send 204 none ∧
    ("1" ∉ (deleteComment removeCommentSpec "1" ["1", "2"]).2 ∧
      (deleteComment removeCommentSpec "1"
          (deleteComment removeCommentSpec "1" ["1", "2"]).2).1
        = .next (.rejection 404 "not found")) ∧
    (deleteComment removeCommentSpec "100" ["1", "2"]
        = (.next (.rejection 404 "not found"), ["1", "2"]) ∧
      (deleteComment removeCommentSpec "100" ["1", "2"]).1.status = 404) :=
  ⟨⟨by decide, by decide⟩,
    (deleteComment_204_iff_exists "1" ["1", "2"]).1.2 (by decide),
    (deleteComment_204_iff_exists "1" ["1", "2"]).2.2 (by decide),
    (deleteComment_204_iff_exists "100" ["1", "2"]).2.1 (by decide)⟩

/-! ## Theorems: `postComment` -/

/-- The storage model rejects every record that lacks the author or the body. -/
theorem insertCommentSpec_rejects (comment_id : Int) (created_at : String) (record : Obj Val)
    (h : hasField record "author" = false ∨ hasField record "body" = false) :
    insertCommentSpec comment_id created_at [record] = .error (.storage .malformed) := by
  rcases h with h | h <;> simp [insertCommentSpec, h]

/-- C8, as stated, fails: the body `{ author: 'rogersop', body: 'hello' }` lacks
`username`, yet it gives `insertComment` the same record as
`{ username: 'rogersop', body: 'hello' }` and is answered 201. -/
theorem postComment_author_counterexample :
    hasField ([("author", .str "rogersop"), ("body", .str "hello")] : Obj Val) "username"
        = false ∧
      postRecord "1" [("author", .str "rogersop"), ("body", .str "hello")]
        = postRecord "1" [("username", .str "rogersop"), ("body", .str "hello")] ∧
      postComment (insertCommentSpec 19 "2019-10-14T12:48:47.000Z") "1"
          [("author", .str "rogersop"), ("body", .str "hello")]
        = .send 201 (some (.obj [("comment", .obj
            [("author", .str "rogersop"), ("body", .str "hello"), ("article_id", .str "1"),
             ("comment_id", .num 19), ("votes", .num 0),
             ("created_at", .str "2019-10-14T12:48:47.000Z")])])) :=
  ⟨rfl, rfl, rfl⟩

/-- C8, amended: for every request body that lacks the `body` field, or lacks both
the `username` field and the `author` field, the record `postComment` hands to
`insertComment` lacks the body or the author; a storage layer that rejects such
records as malformed makes the request fail with status 400 "bad request", and
no 201 is sent. -/
theorem postComment_missing_field (insertComment : List (Obj Val) → Except Failure Rows)
    (article_id : String) (body : Obj Val)
    (hstore : ∀ record : Obj Val,
      hasField record "author" = false ∨ hasField record "body" = false →
      insertComment [record] = .error (.storage .malformed))
    (hmiss : hasField body "body" = false ∨
      (hasField body "username" = false ∧ hasField body "author" = false)) :
    postComment insertComment article_id body = .next (.storage .malformed) ∧
      (postComment insertComment article_id body).status = 400 ∧
      classify (.storage .malformed) = (400, "bad request") ∧
      ∀ b, postComment insertComment article_id body ≠ .send 201 b := by
  have hrec : postRecord article_id body
      = [renameObj (setField body "article_id" (.str article_id)) "username" "author"] := rfl
  have hclone : ∀ k, "article_id" ≠ k →
      getField (setField body "article_id" (.str article_id)) k = getField body k :=
    fun k hk => getField_setField_ne body "article_id" (.str article_id) k hk
  have hlack : hasField (renameObj (setField body "article_id" (.str article_id))
        "username" "author") "author" = false ∨
      hasField (renameObj (setField body "article_id" (.str article_id))
        "username" "author") "body" = false := by
    rcases hmiss with hb | ⟨hu, ha⟩
    · right
      have hb' : getField body "body" = none := by simpa [hasField] using hb
      have hget := getField_renameObj_other (setField body "article_id" (.str article_id))
        "username" "author" "body" (by decide) (by decide) (by decide)
      rw [hclone "body" (by decide), hb'] at hget
      simp [hasField, hget]
    · left
      have hu' : getField body "username" = none := by simpa [hasField] using hu
      have ha' : getField body "author" = none := by simpa [hasField] using ha
      have hno : hasField (setField body "article_id" (.str article_id)) "author" = false := by
        simp [hasField, hclone "author" (by decide), ha']
      have hget := getField_renameObj_new (setField body "article_id" (.str article_id))
        "username" "author" (Or.inr hno) (by decide)
      rw [hclone "username" (by decide), hu'] at hget
      simp [hasField, hget]
  have hout : postComment insertComment article_id body = .next (.storage .malformed) := by
    simp [postComment, hrec, hstore _ hlack]
  refine ⟨hout, by rw [hout]; rfl, rfl, ?_⟩
  intro b hb
  rw [hout] at hb
  cases hb

/-- C8, amended, at the body `{ pizza: 'rogersop', body: 'hello' }` of the test. -/
theorem postComment_missing_field_witness :
    postComment (insertCommentSpec 19 "2019-10-14T12:48:47.000Z") "1"
          [("pizza", .str "rogersop"), ("body", .str "hello")]
        = .next (.storage .malformed) ∧
      (postComment (insertCommentSpec 19 "2019-10-14T12:48:47.000Z") "1"
          [("pizza", .str "rogersop"), ("body", .str "hello")]).status = 400 ∧
      classify (.storage .malformed) = (400, "bad request") ∧
      ∀ b, postComment (insertCommentSpec 19 "2019-10-14T12:48:47.000Z") "1"
          [("pizza", .str "rogersop"), ("body", .str "hello")] ≠ .send 201 b :=
  postComment_missing_field (insertCommentSpec 19 "2019-10-14T12:48:47.000Z") "1"
    [("pizza", .str "rogersop"), ("body", .str "hello")]
    (fun record h => insertCommentSpec_rejects 19 "2019-10-14T12:48:47.000Z" record h)
    (Or.inr ⟨rfl, rfl⟩)

/-! ## Theorems: `renameKeys` -/

/-- C10, as stated, fails.  On an entity that has both fields: with `author`
enumerated first, the value that was under `author` is not found under
`username`; with `username` enumerated first, the field already named
`username` does not keep its value.  On the name `__proto__`: a field so named
is not in the result, and a value renamed to `__proto__` is found nowhere. -/
theorem renameKeys_collision_counterexample :
    (getField ([("author", "butter_bridge"), ("username", "rogersop")] : Obj String) "author"
        = some "butter_bridge" ∧
      renameKeys [([("author", "butter_bridge"), ("username", "rogersop")] : Obj String)]
          "author" "username"
        = [[("username", "rogersop")]] ∧
      getField ([("username", "rogersop")] : Obj String) "username" ≠ some "butter_bridge") ∧
    (getField ([("username", "rogersop"), ("author", "butter_bridge")] : Obj String) "username"
        = some "rogersop" ∧
      renameKeys [([("username", "rogersop"), ("author", "butter_bridge")] : Obj String)]
          "author" "username"
        = [[("username", "butter_bridge")]] ∧
      getField ([("username", "butter_bridge")] : Obj String) "username" ≠ some "rogersop") ∧
    (getField ([("__proto__", "p"), ("author", "butter_bridge")] : Obj String) "__proto__"
        = some "p" ∧
      renameKeys [([("__proto__", "p"), ("author", "butter_bridge")] : Obj String)]
          "author" "username"
        = [[("username", "butter_bridge")]] ∧
      getField ([("username", "butter_bridge")] : Obj String) "__proto__" = none) ∧
    (renameKeys [([("author", "butter_bridge")] : Obj String)] "author" "__proto__" = [[]] ∧
      getField ([] : Obj String) "__proto__" = none) := by
  decide

/-- C10, amended: `renameKeys` keeps the length and the order, its i-th entity being
the renaming of the i-th entity of `arr`; every field whose key differs from
`keyToChange`, from `newKey` and from `__proto__` is present with its original
value; when `newKey` is not `__proto__`, the value under `keyToChange` is found
under `newKey` if the entity has no other field already named `newKey`, and a
field already named `newKey` keeps its value if the entity has no `keyToChange`
field. -/
theorem renameKeys_preserves {α : Type} (arr : List (Obj α)) (keyToChange newKey : String) :
    (renameKeys arr keyToChange newKey).length = arr.length ∧
    (∀ i : Nat, (renameKeys arr keyToChange newKey)[i]?
        = (arr[i]?).map (fun obj => renameObj obj keyToChange newKey)) ∧
    ∀ obj ∈ arr,
      (∀ k v, k ≠ keyToChange → k ≠ newKey → k ≠ "__proto__" → getField obj k = some v →
        getField (renameObj obj keyToChange newKey) k = some v) ∧
      (newKey ≠ "__proto__" → (keyToChange = newKey ∨ hasField obj newKey = false) →
        ∀ v, getField obj keyToChange = some v →
          getField (renameObj obj keyToChange newKey) newKey = some v) ∧
      (newKey ≠ "__proto__" → hasField obj keyToChange = false →
        ∀ v, getField obj newKey = some v →
          getField (renameObj obj keyToChange newKey) newKey = some v) := by
  refine ⟨by simp [renameKeys], fun i => renameKeys_getElem? arr keyToChange newKey i, ?_⟩
  intro obj _
  refine ⟨?_, ?_, ?_⟩
  · intro k v hka hkb hk hv
    rw [getField_renameObj_other obj keyToChange newKey k hka hkb hk, hv]
  · intro hb hno v hv
    rw [getField_renameObj_new obj keyToChange newKey hno hb, hv]
  · intro hb ha v hv
    rw [getField_renameObj_same obj keyToChange newKey (Or.inr ha) newKey hb, hv]

/-- C10, amended, on two comments: `author` becomes `username`, `votes` stays. -/
theorem renameKeys_preserves_witness :
    (renameKeys [([("author", "butter_bridge"), ("votes", "16")] : Obj String),
        [("votes", "3"), ("author", "icellusedkars")]] "author" "username").length = 2 ∧
    getField (renameObj ([("author", "butter_bridge"), ("votes", "16")] : Obj String)
        "author" "username") "votes" = some "16" ∧
    getField (renameObj ([("author", "butter_bridge"), ("votes", "16")] : Obj String)
        "author" "username") "username" = some "butter_bridge" ∧
    getField (renameObj ([("username", "rogersop"), ("votes", "16")] : Obj String)
        "author" "username") "username" = some "rogersop" :=
  ⟨(renameKeys_preserves [([("author", "butter_bridge"), ("votes", "16")] : Obj String),
        [("votes", "3"), ("author", "icellusedkars")]] "author" "username").1,
    ((renameKeys_preserves [([("author", "butter_bridge"), ("votes", "16")] : Obj String)]
        "author" "username").2.2 _ (List.mem_singleton.mpr rfl)).1
      "votes" "16" (by decide) (by decide) (by decide) rfl,
    ((renameKeys_preserves [([("author", "butter_bridge"), ("votes", "16")] : Obj String)]
        "author" "username").2.2 _ (List.mem_singleton.mpr rfl)).2.1
      (by decide) (Or.inr rfl) "butter_bridge" rfl,
    ((renameKeys_preserves [([("username", "rogersop"), ("votes", "16")] : Obj String)]
        "author" "username").2.2 _ (List.mem_singleton.mpr rfl)).2.2
      (by decide) rfl "rogersop" rfl⟩

/-! ## Theorems: `renameKeys` as a no-op and as a round trip -/

/-- C11, as stated, fails: the entity `{ "__proto__": "p", b: "y" }` has no field
`zzz`, yet renaming `zzz` to `q` returns `{ b: "y" }`, without the field named
`__proto__`. -/
theorem renameKeys_absent_noop_counterexample :
    hasField ([("__proto__", "p"), ("b", "y")] : Obj String) "zzz" = false ∧
      getField ([("__proto__", "p"), ("b", "y")] : Obj String) "__proto__" = some "p" ∧
      renameKeys [([("__proto__", "p"), ("b", "y")] : Obj String)] "zzz" "q" = [[("b", "y")]] ∧
      getField ([("b", "y")] : Obj String) "__proto__" = none := by
  decide

/-- C11, amended: when no entity of `arr` has the field `keyToChange` and none has
a field named `__proto__`, `renameKeys` returns a sequence of the same length
whose i-th entity has the fields and values of the i-th entity of `arr`, and
is that very entity when it is well-formed; on the empty sequence it returns
the empty sequence. -/
theorem renameKeys_absent_noop {α : Type} (arr : List (Obj α)) (keyToChange newKey : String)
    (h : ∀ obj ∈ arr, hasField obj keyToChange = false)
    (hproto : ∀ obj ∈ arr, hasField obj "__proto__" = false) :
    (renameKeys arr keyToChange newKey).length = arr.length ∧
    (∀ (i : Nat) (obj : Obj α), arr[i]? = some obj →
      ∃ obj' : Obj α, (renameKeys arr keyToChange newKey)[i]? = some obj' ∧
        ∀ k, getField obj' k = getField obj k) ∧
    ((∀ obj ∈ arr, wellFormed obj = true) → renameKeys arr keyToChange newKey = arr) ∧
    renameKeys ([] : List (Obj α)) keyToChange newKey = [] := by
  refine ⟨by simp [renameKeys], ?_, ?_, rfl⟩
  · intro i obj hi
    refine ⟨renameObj obj keyToChange newKey, ?_, ?_⟩
    · rw [renameKeys_getElem?, hi]
      rfl
    · intro k
      exact getField_renameObj_same_all obj keyToChange newKey
        (Or.inr (h obj (List.getElem?_mem hi))) (hproto obj (List.getElem?_mem hi)) k
  · intro hwf
    unfold renameKeys
    conv_rhs => rw [← List.map_id arr]
    apply List.map_congr_left
    intro obj hobj
    exact renameObj_eq_self obj keyToChange newKey (Or.inr (h obj hobj)) (hproto obj hobj)
      (hwf obj hobj)

/-- C11, amended, on two comments without a `username` field, renamed from
`username` to `author`, and on the empty sequence. -/
theorem renameKeys_absent_noop_witness :
    (renameKeys [([("author", "butter_bridge"), ("votes", "16")] : Obj String),
        [("5", "x"), ("body", "hello")]] "username" "author").length = 2 ∧
    (∀ (i : Nat) (obj : Obj String),
      [([("author", "butter_bridge"), ("votes", "16")] : Obj String),
        [("5", "x"), ("body", "hello")]][i]? = some obj →
      ∃ obj' : Obj String,
        (renameKeys [([("author", "butter_bridge"), ("votes", "16")] : Obj String),
          [("5", "x"), ("body", "hello")]] "username" "author")[i]? = some obj' ∧
        ∀ k, getField obj' k = getField obj k) ∧
    renameKeys [([("author", "butter_bridge"), ("votes", "16")] : Obj String),
        [("5", "x"), ("body", "hello")]] "username" "author"
      = [[("author", "butter_bridge"), ("votes", "16")], [("5", "x"), ("body", "hello")]] ∧
    renameKeys ([] : List (Obj String)) "username" "author" = [] :=
  ⟨(renameKeys_absent_noop _ "username" "author" (by decide) (by decide)).1,
    (renameKeys_absent_noop _ "username" "author" (by decide) (by decide)).2.1,
    (renameKeys_absent_noop [([("author", "butter_bridge"), ("votes", "16")] : Obj String),
        [("5", "x"), ("body", "hello")]] "username" "author" (by decide) (by decide)).2.2.1
      (by decide),
    (renameKeys_absent_noop ([] : List (Obj String)) "username" "author"
      (by decide) (by decide)).2.2.2⟩

/-- C14, as stated, fails on the name `__proto__`: renaming `author` to `__proto__`
and back returns an entity without fields; an entity with a field named
`__proto__` comes back without it, both through the round trip from `a` to
`q` and through the renaming of `a` to `a`. -/
theorem renameKeys_round_trip_counterexample :
    ("author" ≠ "__proto__" ∧
      hasField ([("author", "butter_bridge")] : Obj String) "__proto__" = false ∧
      renameKeys (renameKeys [([("author", "butter_bridge")] : Obj String)]
          "author" "__proto__") "__proto__" "author" = [[]]) ∧
    ("a" ≠ "q" ∧
      hasField ([("__proto__", "p"), ("b", "y")] : Obj String) "q" = false ∧
      renameKeys (renameKeys [([("__proto__", "p"), ("b", "y")] : Obj String)] "a" "q") "q" "a"
        = [[("b", "y")]]) ∧
    renameKeys [([("__proto__", "p"), ("b", "y")] : Obj String)] "a" "a" = [[("b", "y")]] := by
  decide

/-- C14, amended: when no entity of `arr` has a field named `__proto__`: for two
distinct names `a` and `b`, `b` not being `__proto__`, such that no entity has
a field named `b`, renaming `a` to `b` and then `b` to `a` gives a sequence of
the same length whose i-th entity has the fields and values of the i-th
entity of `arr`; and renaming `a` to `a` does the same, returning every
well-formed entity as it is. -/
theorem renameKeys_round_trip {α : Type} (arr : List (Obj α)) (a b : String)
    (hproto : ∀ obj ∈ arr, hasField obj "__proto__" = false) :
    (a ≠ b → b ≠ "__proto__" → (∀ obj ∈ arr, hasField obj b = false) →
      (renameKeys (renameKeys arr a b) b a).length = arr.length ∧
      ∀ (i : Nat) (obj : Obj α), arr[i]? = some obj →
        ∃ obj' : Obj α, (renameKeys (renameKeys arr a b) b a)[i]? = some obj' ∧
          ∀ k, getField obj' k = getField obj k) ∧
    ((renameKeys arr a a).length = arr.length ∧
      (∀ (i : Nat) (obj : Obj α), arr[i]? = some obj →
        ∃ obj' : Obj α, (renameKeys arr a a)[i]? = some obj' ∧
          ∀ k, getField obj' k = getField obj k) ∧
      ((∀ obj ∈ arr, wellFormed obj = true) → renameKeys arr a a = arr)) := by
  refine ⟨?_, by simp [renameKeys], ?_, ?_⟩
  · intro hab hbp hb
    refine ⟨by simp [renameKeys], ?_⟩
    intro i obj hi
    refine ⟨renameObj (renameObj obj a b) b a, ?_, ?_⟩
    · rw [renameKeys_getElem?, renameKeys_getElem?, hi]
      rfl
    · intro k
      have hobj : hasField obj b = false := hb obj (List.getElem?_mem hi)
      have hnone : getField obj b = none := by simpa [hasField] using hobj
      have hpnone : getField obj "__proto__" = none := by
        simpa [hasField] using hproto obj (List.getElem?_mem hi)
      have hmid : hasField (renameObj obj a b) a = false := by
        simp [hasField, getField_renameObj_old obj a b hab]
      by_cases hkp : k = "__proto__"
      · rw [hkp, getField_renameObj_proto, hpnone]
      · by_cases hka : k = a
        · subst hka
          rw [getField_renameObj_new (renameObj obj k b) b k (Or.inr hmid) hkp,
            getField_renameObj_new obj k b (Or.inr hobj) hbp]
        · by_cases hkb : k = b
          · subst hkb
            rw [getField_renameObj_old (renameObj obj a k) k a (Ne.symm hab), hnone]
          · rw [getField_renameObj_other (renameObj obj a b) b a k hkb hka hkp,
              getField_renameObj_other obj a b k hka hkb hkp]
  · intro i obj hi
    refine ⟨renameObj obj a a, ?_, ?_⟩
    · rw [renameKeys_getElem?, hi]
      rfl
    · intro k
      exact getField_renameObj_same_all obj a a (Or.inl rfl)
        (hproto obj (List.getElem?_mem hi)) k
  · intro hwf
    unfold renameKeys
    conv_rhs => rw [← List.map_id arr]
    apply List.map_congr_left
    intro obj hobj
    exact renameObj_eq_self obj a a (Or.inl rfl) (hproto obj hobj) (hwf obj hobj)

/-- C14, amended, on a comment: `author` to `username` and back. -/
theorem renameKeys_round_trip_witness :
    ((renameKeys (renameKeys [([("votes", "16"), ("author", "butter_bridge")] : Obj String)]
        "author" "username") "username" "author").length = 1 ∧
      ∀ (i : Nat) (obj : Obj String),
        [([("votes", "16"), ("author", "butter_bridge")] : Obj String)][i]? = some obj →
        ∃ obj' : Obj String, (renameKeys (renameKeys
            [([("votes", "16"), ("author", "butter_bridge")] : Obj String)]
            "author" "username") "username" "author")[i]? = some obj' ∧
          ∀ k, getField obj' k = getField obj k) ∧
    renameKeys [([("votes", "16"), ("author", "butter_bridge")] : Obj String)] "author" "author"
      = [[("votes", "16"), ("author", "butter_bridge")]] :=
  ⟨(renameKeys_round_trip [([("votes", "16"), ("author", "butter_bridge")] : Obj String)]
        "author" "username" (by decide)).1 (by decide) (by decide) (by decide),
    (renameKeys_round_trip [([("votes", "16"), ("author", "butter_bridge")] : Obj String)]
        "author" "author" (by decide)).2.2.2 (by decide)⟩

/-! ## Theorems: the success paths of `getComments` and `postComment` -/

/-- C12: when `order` is absent, "asc" or "desc" and the storage query returns a
sequence of comments (possibly empty), `getComments` sends status 200 with the body
`{ comments: c }`, where `c` has the length and the order of the storage result
and its i-th entity is the i-th comment with the value of `author` under the
name `username`, nothing under `author`, and every other field unchanged. -/
theorem getComments_sends_comments (runQuery : Query → Except StorageError Rows)
    (article_id : String) (sort_by order : Option String) (rows : Rows)
    (horder : order = none ∨ order = some "asc" ∨ order = some "desc")
    (hq : runQuery (selectCommentsByArticleId article_id sort_by order) = .ok rows)
    (hrows : ∀ row ∈ rows, isComment row = true) :
    getComments runQuery article_id sort_by order
        = .send 200 (some (.obj [("comments",
            .arr ((renameKeys rows "author" "username").map Val.obj))])) ∧
      (renameKeys rows "author" "username").length = rows.length ∧
      ∀ (i : Nat) (row : Obj Val), rows[i]? = some row →
        ∃ comment : Obj Val, (renameKeys rows "author" "username")[i]? = some comment ∧
          getField comment "username" = getField row "author" ∧
          getField comment "author" = none ∧
          ∀ k, k ≠ "author" → k ≠ "username" → getField comment k = getField row k := by
  refine ⟨?_, by simp [renameKeys], ?_⟩
  · rcases horder with h | h | h <;> subst h <;> simp [getComments, hq, commentsBody]
  · intro i row hi
    have hrow : isComment row = true := hrows row (List.getElem?_mem hi)
    refine ⟨renameObj row "author" "username", ?_, ?_, ?_, ?_⟩
    · rw [renameKeys_getElem?, hi]
      rfl
    · exact getField_renameObj_new row "author" "username"
        (Or.inr (isComment_no_username row hrow)) (by decide)
    · exact getField_renameObj_old row "author" "username" (by decide)
    · intro k hka hkb
      by_cases hk : k = "__proto__"
      · have hn : getField row "__proto__" = none := by
          simpa [hasField] using isComment_no_proto row hrow
        rw [hk, getField_renameObj_proto, hn]
      · exact getField_renameObj_other row "author" "username" k hka hkb hk

/-- C12 on the comment of the test data with `order=asc`: the body sent holds the
comment with `username` in the place of `author`. -/
theorem getComments_sends_comments_witness :
    renameKeys [sampleComment] "author" "username"
      = [[("comment_id", .num 1), ("username", .str "butter_bridge"), ("article_id", .num 9),
          ("votes", .num 16), ("created_at", .str "2017-11-22T12:36:03.389Z"),
          ("body", .str "Oh, I have got compassion!")]] ∧
    (getComments (fun _ => .ok [sampleComment]) "9" (some "votes") (some "asc")
        = .send 200 (some (.obj [("comments",
            .arr ((renameKeys [sampleComment] "author" "username").map Val.obj))])) ∧
      (renameKeys [sampleComment] "author" "username").length = [sampleComment].length ∧
      ∀ (i : Nat) (row : Obj Val), [sampleComment][i]? = some row →
        ∃ comment : Obj Val,
          (renameKeys [sampleComment] "author" "username")[i]? = some comment ∧
          getField comment "username" = getField row "author" ∧
          getField comment "author" = none ∧
          ∀ k, k ≠ "author" → k ≠ "username" → getField comment k = getField row k) :=
  ⟨rfl,
    getComments_sends_comments (fun _ => .ok [sampleComment]) "9" (some "votes") (some "asc")
      [sampleComment] (Or.inr (Or.inl rfl)) rfl
      (fun row hrow => by rw [List.mem_singleton.mp hrow]; rfl)⟩

/-- C13, as stated, fails.  On a body that carries both names,
`{ username: 'rogersop', author: 'butter_bridge', body: 'hello' }`, the record
handed to `insertComment` has `author: 'butter_bridge'`, so the value of `username`
is not the one found under `author`.  On a body with a field named
`__proto__`, the record is without that field. -/
theorem postComment_record_counterexample :
    (getField ([("username", .str "rogersop"), ("author", .str "butter_bridge"),
        ("body", .str "hello")] : Obj Val) "username" = some (.str "rogersop") ∧
      postRecord "1" [("username", .str "rogersop"), ("author", .str "butter_bridge"),
          ("body", .str "hello")]
        = [[("author", .str "butter_bridge"), ("body", .str "hello"),
            ("article_id", .str "1")]] ∧
      getField ([("author", .str "butter_bridge"), ("body", .str "hello"),
          ("article_id", .str "1")] : Obj Val) "author" ≠ some (.str "rogersop")) ∧
    (getField ([("__proto__", .str "p"), ("username", .str "rogersop"),
        ("body", .str "hello")] : Obj Val) "__proto__" = some (.str "p") ∧
      postRecord "1" [("__proto__", .str "p"), ("username", .str "rogersop"),
          ("body", .str "hello")]
        = [[("author", .str "rogersop"), ("body", .str "hello"), ("article_id", .str "1")]] ∧
      getField ([("author", .str "rogersop"), ("body", .str "hello"),
          ("article_id", .str "1")] : Obj Val) "__proto__" = none) := by
  refine ⟨⟨rfl, rfl, ?_⟩, rfl, rfl, rfl⟩
  intro h
  have h2 : (Val.str "butter_bridge") = Val.str "rogersop" := Option.some.inj h
  have h3 : "butter_bridge" = "rogersop" := Val.str.inj h2
  revert h3
  decide

/-- C13, amended: `postComment` hands one record to `insertComment`; it has `article_id`
set to the route's, nothing under `username` or `__proto__`, the value of
`username` under `author` when the body has no field already named `author`
(and the body's own `author` when it has no `username`), and every other
field of the body, save one named `__proto__`, unchanged; the object held by
`req.body`, like every object allocated before, is left as it was; and when
the insert returns a non-empty sequence of rows the response is 201 with the
body `{ comment: first row }`. -/
theorem postComment_record (insertComment : List (Obj Val) → Except Failure Rows)
    (article_id : String) (body : Obj Val) :
    (postRecord article_id body).length = 1 ∧
    (∀ record ∈ postRecord article_id body,
      getField record "article_id" = some (.str article_id) ∧
      getField record "username" = none ∧
      getField record "__proto__" = none ∧
      (hasField body "author" = false →
        getField record "author" = getField body "username") ∧
      (hasField body "username" = false →
        getField record "author" = getField body "author") ∧
      ∀ k, k ≠ "username" → k ≠ "author" → k ≠ "article_id" → k ≠ "__proto__" →
        getField record k = getField body k) ∧
    (∀ (h : Heap) (reqBody : Nat), reqBody < h.length → readObj h reqBody = body →
      (postRecordHeap article_id h reqBody).2 = postRecord article_id body ∧
      ∀ ref, ref < h.length →
        readObj (postRecordHeap article_id h reqBody).1 ref = readObj h ref) ∧
    (∀ (row : Obj Val) (rest : Rows),
      insertComment (postRecord article_id body) = .ok (row :: rest) →
      postComment insertComment article_id body
        = .send 201 (some (.obj [("comment", .obj row)]))) := by
  have hrec : postRecord article_id body
      = [renameObj (setField body "article_id" (.str article_id)) "username" "author"] := rfl
  have hclone : ∀ k, "article_id" ≠ k →
      getField (setField body "article_id" (.str article_id)) k = getField body k :=
    fun k hk => getField_setField_ne body "article_id" (.str article_id) k hk
  refine ⟨by rw [hrec]; rfl, ?_, ?_, ?_⟩
  · intro record hmem
    rw [hrec] at hmem
    rw [List.mem_singleton.mp hmem]
    refine ⟨?_, ?_, ?_, ?_, ?_, ?_⟩
    · rw [getField_renameObj_other _ "username" "author" "article_id"
          (by decide) (by decide) (by decide),
        getField_setField body "article_id" _ "article_id" (by decide), if_pos rfl]
    · exact getField_renameObj_old _ "username" "author" (by decide)
    · exact getField_renameObj_proto _ "username" "author"
    · intro hno
      have hno' : hasField (setField body "article_id" (.str article_id)) "author" = false := by
        simpa [hasField, hclone "author" (by decide)] using hno
      rw [getField_renameObj_new _ "username" "author" (Or.inr hno') (by decide),
        hclone "username" (by decide)]
    · intro hno
      have hno' : hasField (setField body "article_id" (.str article_id)) "username"
          = false := by
        simpa [hasField, hclone "username" (by decide)] using hno
      rw [getField_renameObj_same _ "username" "author" (Or.inr hno') "author" (by decide),
        hclone "author" (by decide)]
    · intro k hk1 hk2 hk3 hk4
      rw [getField_renameObj_other _ "username" "author" k hk1 hk2 hk4,
        hclone k (Ne.symm hk3)]
  · intro h reqBody hlt hbody
    refine ⟨?_, ?_⟩
    · rw [postRecordHeap_args, hbody]
    · intro ref href
      exact postRecordHeap_frame article_id h reqBody ref href
  · intro row rest hins
    simp [postComment, hins, createdBody]

/-- C13, amended, on the body `{ username: 'rogersop', body: 'hello' }` of the test,
posted to article 1. -/
theorem postComment_record_witness :
    postRecord "1" [("username", .str "rogersop"), ("body", .str "hello")]
      = [[("author", .str "rogersop"), ("body", .str "hello"), ("article_id", .str "1")]] ∧
    ((postRecordHeap "1" [[("username", .str "rogersop"), ("body", .str "hello")]] 0).2
        = postRecord "1" [("username", .str "rogersop"), ("body", .str "hello")] ∧
      ∀ ref, ref < [[("username", Val.str "rogersop"), ("body", Val.str "hello")]].length →
        readObj (postRecordHeap "1"
            [[("username", .str "rogersop"), ("body", .str "hello")]] 0).1 ref
          = readObj [[("username", .str "rogersop"), ("body", .str "hello")]] ref) ∧
    postComment (insertCommentSpec 19 "2019-10-14T12:48:47.000Z") "1"
        [("username", .str "rogersop"), ("body", .str "hello")]
      = .send 201 (some (.obj [("comment", .obj
          [("author", .str "rogersop"), ("body", .str "hello"), ("article_id", .str "1"),
           ("comment_id", .num 19), ("votes", .num 0),
           ("created_at", .str "2019-10-14T12:48:47.000Z")])])) :=
  ⟨rfl,
    (postComment_record (insertCommentSpec 19 "2019-10-14T12:48:47.000Z") "1"
      [("username", .str "rogersop"), ("body", .str "hello")]).2.2.1
      [[("username", .str "rogersop"), ("body", .str "hello")]] 0 (by decide) rfl,
    (postComment_record (insertCommentSpec 19 "2019-10-14T12:48:47.000Z") "1"
      [("username", .str "rogersop"), ("body", .str "hello")]).2.2.2 _ [] rfl⟩

end NcNews
